import Mathlib

/-!
Shallow embedding of the Territory Control Engine of `src/streamlit_app.py`
(the "Madden Imperialism Engine"): initial nearest-site partition,
adjacency-graph construction, agent-neighbor queries, the spin/confirm
battle handlers, and the replay handler, together with theorems settling
the frozen claims about them.

Python dicts are embedded as association lists (`List (String × β)`),
looked up by first match; every dict built by the code has pairwise
distinct keys, so first-match lookup agrees with Python dict lookup.
Python sets are embedded as duplicate-free lists built with
`List.insert`; only membership and emptiness of these sets matter to the
program. Coordinates are embedded as rationals, and nearest-site
comparison uses squared planar distance, which induces the same order as
the Euclidean distance the spec describes.
-/

namespace Imperialism

/-- A row of the team roster: `{"name": …, "lat": …, "lon": …, "color": …, "active": …}`
(built at lines 319-322 of `src/streamlit_app.py`). -/
structure Team where
  name : String
  lat : ℚ
  lon : ℚ
  color : String
  active : Bool
deriving Repr, DecidableEq, Inhabited

/-- A row of `counties_df`: a county with its fips code and mean-center
coordinates (line 131). -/
structure County where
  fips : String
  lat : ℚ
  lon : ℚ
deriving Repr, DecidableEq, Inhabited

/-- One entry of `battle_log`: `{"att": …, "def": …, "winner": …}` where
`winner` is `None` while the battle is pending (line 440).  The Python key
`def` is a Lean keyword, so the field is called `dfn`. -/
structure Battle where
  att : String
  dfn : String
  winner : Option String
deriving Repr, DecidableEq, Inhabited

/-- First-match lookup in an association list; embeds Python `dict`
indexing / `.get` on the dicts built by the program (whose keys are
pairwise distinct). -/
def dget (k : String) : List (String × β) → Option β
  | [] => none
  | (a, b) :: m => if a = k then some b else dget k m

/-- Python truthiness of a `winner` field: `None` and the empty string are
falsy, any other string is truthy (the test `b.get('winner')` at line 366). -/
def truthy : Option String → Bool
  | none => false
  | some w => w ≠ ""

/-- The fips codes currently owned by `team_name`:
`[fips for fips, owner in county_assignments.items() if owner == team_name]`
(line 213). -/
def ownedBy (team_name : String) (county_assignments : List (String × String)) : List String :=
  (county_assignments.filter (fun p => p.2 = team_name)).map Prod.fst

/-- Squared planar distance between `(x1, y1)` and `(x2, y2)`.  The KDTree
of line 156 compares Euclidean distances over `(lat, lon)` pairs; squaring
preserves the comparison order. -/
def sqDist (x1 y1 x2 y2 : ℚ) : ℚ :=
  (x1 - x2) * (x1 - x2) + (y1 - y2) * (y1 - y2)

/-- Index (and value) of the first minimum of `f` on a list: `some (j, v)`
with `v = f l[j]`, `v` minimal, and `j` the least index attaining it. -/
def argminQ (f : α → ℚ) : List α → Option (Nat × ℚ)
  | [] => none
  | a :: l =>
    match argminQ f l with
    | none => some (0, f a)
    | some (j, v) => if f a ≤ v then some (0, f a) else some (j + 1, v)

/-- Embeds `tree = KDTree(team_coords); _, indices = tree.query(county_coords)`
(lines 156-157): the roster index of the team nearest to `(lat, lon)` by
planar Euclidean distance.  Modelled from the spec for the tie case:
scipy's `KDTree.query` does not specify which of several exactly
equidistant sites is returned, and the spec fixes the choice to the
smallest roster index, which this definition implements by taking the
first minimizer. -/
def kdtreeNearest (teams : List Team) (lat lon : ℚ) : Nat :=
  match argminQ (fun t => sqDist t.lat t.lon lat lon) teams with
  | some (j, _) => j
  | none => 0

/-- `assign_initial_territories` (lines 152-158): empty roster gives the
empty dict; otherwise each county's fips is mapped to the name of the
nearest team. -/
def assign_initial_territories (teams : List Team) (counties : List County) :
    List (String × String) :=
  if teams.isEmpty then []
  else counties.map (fun c =>
    (c.fips, (teams.getD (kdtreeNearest teams c.lat c.lon) default).name))

/-- Inner loop body of `get_neighbors` (lines 217-220): look up the owner
of an adjacent fips and add it to the accumulated set when it is truthy
and differs from the querying team. -/
def addOwner (county_assignments : List (String × String)) (team_name : String)
    (neighbors : List String) (adj_fips : String) : List String :=
  match dget adj_fips county_assignments with
  | none => neighbors
  | some neighbor_owner =>
    if neighbor_owner ≠ "" ∧ neighbor_owner ≠ team_name then
      neighbors.insert neighbor_owner
    else neighbors

/-- Outer loop body of `get_neighbors` (lines 215-220): a fips absent from
`adjacencies` contributes nothing (the `if fips in st.session_state.adjacencies`
guard), otherwise each adjacent fips is processed by `addOwner`. -/
def addCounty (county_assignments : List (String × String))
    (adjacencies : List (String × List String)) (team_name : String)
    (neighbors : List String) (fips : String) : List String :=
  match dget fips adjacencies with
  | none => neighbors
  | some adj => adj.foldl (addOwner county_assignments team_name) neighbors

/-- `get_neighbors(team_name)` (lines 212-221): the set of owners, other
than `team_name`, of counties adjacent to counties owned by `team_name`.
The Python `set` is embedded as a duplicate-free list; the program only
uses its membership and emptiness. -/
def get_neighbors (county_assignments : List (String × String))
    (adjacencies : List (String × List String)) (team_name : String) : List String :=
  (ownedBy team_name county_assignments).foldl
    (addCounty county_assignments adjacencies team_name) []

/-- Python `str.zfill(5)` on the unsigned fips strings the program feeds
it: pad on the left with `'0'` to length 5. -/
def zfill5 (s : String) : String :=
  if 5 ≤ s.length then s else String.mk (List.replicate (5 - s.length) '0') ++ s

/-- `if current_county not in adj_dict: adj_dict[current_county] = []`
(line 143). -/
def ensureKey (d : List (String × List String)) (k : String) :
    List (String × List String) :=
  if (dget k d).isSome then d else d ++ [(k, [])]

/-- `adj_dict[current_county].append(neighbor_fips)` (line 146). -/
def appendNeighbor (d : List (String × List String)) (k n : String) :
    List (String × List String) :=
  d.map (fun p => if p.1 = k then (p.1, p.2 ++ [n]) else p)

/-- One iteration of the adjacency parsing loop (lines 139-146) on a row
that split into at least 4 tab-separated fields.  A record is the pair of
the stripped fields `parts[1]` and `parts[3]`; a non-empty `parts[1]`
starts a new current county (ensuring its key exists), and the neighbor
fips is appended to the current county's list unless it equals it. -/
def adjLineStep (st : Option String × List (String × List String))
    (rec : String × String) : Option String × List (String × List String) :=
  let cur := if rec.1 ≠ "" then some (zfill5 rec.1) else st.1
  let d := if rec.1 ≠ "" then ensureKey st.2 (zfill5 rec.1) else st.2
  let neighbor_fips := zfill5 rec.2
  match cur with
  | some c => if neighbor_fips ≠ c then (some c, appendNeighbor d c neighbor_fips)
              else (some c, d)
  | none => (none, d)

/-- The adjacency-parsing loop of `load_map_resources` (lines 133-146),
run over the stripped `(parts[1], parts[3])` fields of the data rows. -/
def build_adjacencies (records : List (String × String)) :
    List (String × List String) :=
  (records.foldl adjLineStep (none, [])).2

/-- `adj_dict` neighbor list of an entity, empty if the entity is not a
key. -/
def neighborsOf (d : List (String × List String)) (k : String) : List String :=
  (dget k d).getD []

/-- The session state the handlers read and write: the roster, the
ownership dict, the adjacency dict and the battle log. -/
structure GameState where
  teams : List Team
  county_assignments : List (String × String)
  adjacencies : List (String × List String)
  battle_log : List Battle
deriving Repr, DecidableEq

/-- The ownership transform of the Confirm Result handler (line 414):
every county owned by the loser moves to the winner, everything else is
unchanged; the loser is the one of attacker/defender that is not the
winner (line 412). -/
def confirmAssignments (county_assignments : List (String × String))
    (att dfn winner : String) : List (String × String) :=
  let loser := if winner = att then dfn else att
  county_assignments.map (fun p => (p.1, if p.2 = loser then winner else p.2))

/-- The active-flag recomputation of the Confirm Result handler
(lines 415-416): `t['active'] = t['name'] in set(county_assignments.values())`. -/
def recomputeActive (teams : List Team)
    (county_assignments : List (String × String)) : List Team :=
  teams.map (fun t =>
    { t with active := decide (t.name ∈ county_assignments.map Prod.snd) })

/-- The Confirm Result handler (lines 410-416): with `active_battle` the
last log entry, record the winner in place, move the loser's counties to
the winner, and recompute every team's active flag from the new
assignments.  The handler only runs when a last entry exists. -/
def confirmResult (s : GameState) (winner : String) : GameState :=
  match s.battle_log.getLast? with
  | none => s
  | some active_battle =>
    let newAssignments := confirmAssignments s.county_assignments
      active_battle.att active_battle.dfn winner
    { s with
      battle_log := s.battle_log.dropLast ++ [{ active_battle with winner := some winner }]
      county_assignments := newAssignments
      teams := recomputeActive s.teams newAssignments }

/-- One replay step (lines 368-369 and 385): for a completed battle,
every county owned by the loser moves to the winner. -/
def replayStep (cur_map : List (String × String)) (battle : Battle) :
    List (String × String) :=
  let win := battle.winner.getD ""
  let loser := if win = battle.att then battle.dfn else battle.att
  cur_map.map (fun p => (p.1, if p.2 = loser then win else p.2))

/-- The Replay All Battles loop (lines 366-399): filter the log down to
the battles with a truthy winner and fold the replay step over them,
starting from the given initial partition. -/
def replayAll (battle_log : List Battle) (init : List (String × String)) :
    List (String × String) :=
  (battle_log.filter (fun b => truthy b.winner)).foldl replayStep init

/-- The whole Replay All Battles handler as a state transformer: it
recomputes the initial partition from the roster and writes the replayed
final map into `county_assignments` (line 399); it writes nothing else of
the game state (in particular it leaves `battle_log` untouched). -/
def replayHandler (counties : List County) (s : GameState) : GameState :=
  { s with county_assignments :=
      replayAll s.battle_log (assign_initial_territories s.teams counties) }

/-- `random.choice` fed an externally chosen index, reduced modulo the
list length; on the non-empty lists the program feeds it, the result is a
member of the list. -/
def choose (l : List α) (k : Nat) (d : α) : α :=
  l.getD (k % l.length) d

/-- The SPIN FOR NEXT BATTLE handler's selection logic (lines 422-440):
filter the active teams down to the viable attackers (those with a
non-empty `get_neighbors` set); if none, the handler falls through and
does nothing; otherwise pick an attacker among the viable teams and a
defender among its neighbors (the intermediate 12- and 10-iteration
spinning loops only redraw the header and are display-only), and return
the pending battle that line 440 appends.  `k1`, `k2` stand for the
`random.choice` draws. -/
def spinForNextBattle (teams : List Team)
    (county_assignments : List (String × String))
    (adjacencies : List (String × List String)) (k1 k2 : Nat) : Option Battle :=
  let active_teams := teams.filter (fun t => t.active)
  let viable_attackers := active_teams.filter
    (fun t => !(get_neighbors county_assignments adjacencies t.name).isEmpty)
  if viable_attackers.isEmpty then none
  else
    let final_attacker := (choose viable_attackers k1 default).name
    let valid_neighbors := get_neighbors county_assignments adjacencies final_attacker
    let final_defender := choose valid_neighbors k2 ""
    some { att := final_attacker, dfn := final_defender, winner := none }

/-- The SPIN FOR NEXT BATTLE handler as a state transformer: append the
proposed pending battle to the log when one is produced, otherwise leave
the state untouched (the Python handler has no `else` branch and no error
path). -/
def spinHandler (s : GameState) (k1 k2 : Nat) : GameState :=
  match spinForNextBattle s.teams s.county_assignments s.adjacencies k1 k2 with
  | none => s
  | some b => { s with battle_log := s.battle_log ++ [b] }

/-- Live, sequential resolution of a list of resolved events: for each
event, append it as pending (what the spin handler does at line 440) and
resolve it with its recorded winner through the Confirm Result handler.
This is the live code path whose final `county_assignments` the replay
handler must reproduce. -/
def liveResolveAll (events : List Battle) (start : GameState) : GameState :=
  events.foldl
    (fun s b =>
      confirmResult
        { s with battle_log := s.battle_log ++ [{ att := b.att, dfn := b.dfn, winner := none }] }
        (b.winner.getD ""))
    start

/-! Concrete inputs, used to instantiate the theorems below.  The two-team
scenario is the one of the spec's testable-properties section: sites at
`(0,0)` and `(10,10)`, entities at `(1,1)`, `(9,9)` and `(5,5)`. -/

/-- Team at site `(0, 0)`. -/
def tAlpha : Team :=
  { name := "Alpha", lat := 0, lon := 0, color := "#ff0000", active := true }

/-- Team at site `(10, 10)`. -/
def tBravo : Team :=
  { name := "Bravo", lat := 10, lon := 10, color := "#0000ff", active := true }

/-- The two-team roster. -/
def duoTeams : List Team := [tAlpha, tBravo]

/-- County at `(1, 1)`. -/
def cOne : County := { fips := "01001", lat := 1, lon := 1 }

/-- County at `(9, 9)`. -/
def cNine : County := { fips := "09009", lat := 9, lon := 9 }

/-- County at `(5, 5)`, exactly equidistant from the two team sites. -/
def cFive : County := { fips := "05005", lat := 5, lon := 5 }

/-- The three-county universe of the scenario. -/
def duoCounties : List County := [cOne, cNine, cFive]

/-- The nearest-site partition of the scenario (the tie at `(5,5)` goes to
the lower roster index, `Alpha`). -/
def duoAssignments : List (String × String) :=
  [("01001", "Alpha"), ("09009", "Bravo"), ("05005", "Alpha")]

/-- A symmetric adjacency dict for the scenario: the middle county borders
the two outer ones. -/
def duoAdjacencies : List (String × List String) :=
  [("01001", ["05005"]), ("09009", ["05005"]), ("05005", ["01001", "09009"])]

/-- The scenario's game state with an empty log. -/
def duoState : GameState :=
  { teams := duoTeams, county_assignments := duoAssignments,
    adjacencies := duoAdjacencies, battle_log := [] }

/-- A resolved battle between the two teams, won by the attacker. -/
def battleWonByAlpha : Battle :=
  { att := "Alpha", dfn := "Bravo", winner := some "Alpha" }

/-- The pending battle the spin handler proposes in the scenario. -/
def battlePending : Battle := { att := "Alpha", dfn := "Bravo", winner := none }

/-- A state whose single team owns the single county and has no
neighbors: no viable attacker exists. -/
def soloState : GameState :=
  { teams := [tAlpha], county_assignments := [("01001", "Alpha")],
    adjacencies := [("01001", [])], battle_log := [] }

/-- An ownership dict whose only county is absent from the adjacency
dict. -/
def strayAssignments : List (String × String) := [("99999", "Alpha")]

/-- The scenario's state after one resolved battle, with a second battle
still pending at the end of the log. -/
def pendState : GameState :=
  { duoState with battle_log := [battleWonByAlpha, battlePending] }

/-! Helper lemmas. -/

theorem dget_map_snd {β γ : Type} (f : β → γ) (k : String)
    (m : List (String × β)) :
    dget k (m.map (fun p => (p.1, f p.2))) = (dget k m).map f := by
  induction m with
  | nil => rfl
  | cons p m ih =>
    obtain ⟨a, b⟩ := p
    by_cases h : a = k <;> simp [dget, h, ih]

theorem dget_mem {β : Type} (k : String) (l : β) (m : List (String × β))
    (h : dget k m = some l) : (k, l) ∈ m := by
  induction m with
  | nil => simp [dget] at h
  | cons p m ih =>
    obtain ⟨a, b⟩ := p
    by_cases hak : a = k
    · subst hak
      simp [dget] at h
      simp [h]
    · simp [dget, hak] at h
      exact List.mem_cons_of_mem _ (ih h)

theorem dget_append {β : Type} (k : String) (m1 m2 : List (String × β)) :
    dget k (m1 ++ m2) =
      match dget k m1 with
      | some v => some v
      | none => dget k m2 := by
  induction m1 with
  | nil => simp [dget]
  | cons p m ih =>
    obtain ⟨a, b⟩ := p
    by_cases h : a = k <;> simp [dget, h, ih]

theorem dget_isSome_of_mem_keys {β : Type} (k : String) (m : List (String × β))
    (h : k ∈ m.map Prod.fst) : (dget k m).isSome = true := by
  induction m with
  | nil => simp at h
  | cons p m ih =>
    obtain ⟨a, b⟩ := p
    by_cases hak : a = k
    · simp [dget, hak]
    · simp [dget, hak]
      rw [List.map_cons] at h
      rcases List.mem_cons.mp h with h1 | h1
      · exact absurd h1.symm hak
      · exact ih h1

theorem getD_mem {α : Type} (d : α) (l : List α) (n : Nat)
    (h : n < l.length) : l.getD n d ∈ l := by
  induction l generalizing n with
  | nil => simp at h
  | cons a l ih =>
    cases n with
    | zero => simp
    | succ n =>
      simp only [List.getD_cons_succ]
      exact List.mem_cons_of_mem a (ih n (by simpa using h))

theorem choose_mem {α : Type} (l : List α) (k : Nat) (d : α) (h : l ≠ []) :
    choose l k d ∈ l :=
  getD_mem d l _ (Nat.mod_lt _ (List.length_pos.mpr h))

theorem mem_vals_iff_ownedBy (a : String) (m : List (String × String)) :
    a ∈ m.map Prod.snd ↔ ownedBy a m ≠ [] := by
  induction m with
  | nil => simp [ownedBy]
  | cons p m ih =>
    obtain ⟨f, o⟩ := p
    by_cases hoa : o = a
    · subst hoa
      simp [ownedBy, List.filter_cons]
    · simp [ownedBy, List.filter_cons, hoa] at ih ⊢
      exact fun h => absurd h.symm hoa

theorem addOwner_not_self (ca : List (String × String)) (t : String)
    (ns : List String) (a : String) (h : t ∉ ns) : t ∉ addOwner ca t ns a := by
  unfold addOwner
  split
  · exact h
  · split
    · next hcond =>
      rw [List.mem_insert_iff]
      rintro (h1 | h1)
      · exact hcond.2 h1.symm
      · exact h h1
    · exact h

theorem foldl_addOwner_not_self (ca : List (String × String)) (t : String)
    (l : List String) (ns : List String) (h : t ∉ ns) :
    t ∉ l.foldl (addOwner ca t) ns := by
  induction l generalizing ns with
  | nil => exact h
  | cons a l ih => exact ih _ (addOwner_not_self ca t ns a h)

theorem addCounty_not_self (ca : List (String × String))
    (adj : List (String × List String)) (t : String) (ns : List String)
    (f : String) (h : t ∉ ns) : t ∉ addCounty ca adj t ns f := by
  unfold addCounty
  split
  · exact h
  · exact foldl_addOwner_not_self ca t _ ns h

theorem get_neighbors_not_self (ca : List (String × String))
    (adj : List (String × List String)) (t : String) :
    t ∉ get_neighbors ca adj t := by
  unfold get_neighbors
  generalize ownedBy t ca = l
  have hgen : ∀ (l : List String) (ns : List String), t ∉ ns →
      t ∉ l.foldl (addCounty ca adj t) ns := by
    intro l
    induction l with
    | nil => intro ns h; exact h
    | cons f l ih => intro ns h; exact ih _ (addCounty_not_self ca adj t ns f h)
  exact hgen l [] (by simp)

theorem foldl_addCounty_of_unknown (ca : List (String × String))
    (adj : List (String × List String)) (t : String) (l : List String)
    (ns : List String) (h : ∀ f ∈ l, dget f adj = none) :
    l.foldl (addCounty ca adj t) ns = ns := by
  induction l generalizing ns with
  | nil => rfl
  | cons f l ih =>
    have hstep : addCounty ca adj t ns f = ns := by
      unfold addCounty
      rw [h f (List.mem_cons_self f l)]
    rw [List.foldl_cons, hstep]
    exact ih ns (fun g hg => h g (List.mem_cons_of_mem f hg))

/-! Claim theorems. -/

/-- C6 amended claim: building the initial partition with fewer than 2
agents does not fail — an empty roster yields the empty TerritoryState and
a single-agent roster yields the TerritoryState assigning every entity to
that agent; no `DegenerateRoster` error exists in the code. -/
theorem assign_small_roster_total (t : Team) (counties : List County) :
    assign_initial_territories [] counties = []
    ∧ assign_initial_territories [t] counties
      = counties.map (fun c => (c.fips, t.name)) := by
  exact ⟨rfl, rfl⟩

/-- C6 counterexample: with a single-team roster,
`assign_initial_territories` returns a single-owner TerritoryState (and
with an empty roster, an empty one) instead of failing with
`DegenerateRoster` as the claim states. -/
theorem assign_degenerate_returns_state :
    assign_initial_territories [tAlpha] [cOne] = [("01001", "Alpha")]
    ∧ assign_initial_territories [] [cOne] = [] := by
  exact ⟨rfl, rfl⟩

/-- C9 amended claim: a `get_neighbors` query whose owned entities are all
absent from the adjacency dict silently skips them and returns the empty
set; no `UnknownEntity` error is raised. -/
theorem neighbors_unknown_skipped (ca : List (String × String))
    (adj : List (String × List String)) (team_name : String)
    (h : ∀ f ∈ ownedBy team_name ca, dget f adj = none) :
    get_neighbors ca adj team_name = [] := by
  unfold get_neighbors
  exact foldl_addCounty_of_unknown ca adj team_name _ [] h

/-- C9 witness: the single county of `strayAssignments` is unknown to the
empty adjacency dict, and the query silently answers with the empty
set. -/
theorem neighbors_unknown_skipped_witness :
    (∀ f ∈ ownedBy "Alpha" strayAssignments,
      dget f ([] : List (String × List String)) = none)
    ∧ get_neighbors strayAssignments [] "Alpha" = [] :=
  ⟨by decide, neighbors_unknown_skipped strayAssignments [] "Alpha" (by decide)⟩

/-- C9 counterexample: the entity id `"99999"` is outside the (empty)
adjacency universe, yet the neighbors query is answered with the empty
set rather than failing with a distinct `UnknownEntity` error — the code
has no such error path. -/
theorem neighbors_unknown_silent :
    dget "99999" ([] : List (String × List String)) = none
    ∧ get_neighbors strayAssignments [] "Alpha" = [] := by
  exact ⟨rfl, rfl⟩

theorem ensureKey_inv (d : List (String × List String)) (k : String)
    (h : ∀ p ∈ d, p.1 ∉ p.2) : ∀ p ∈ ensureKey d k, p.1 ∉ p.2 := by
  unfold ensureKey
  split
  · exact h
  · intro p hp
    rcases List.mem_append.mp hp with h1 | h1
    · exact h p h1
    · simp at h1
      simp [h1]

theorem appendNeighbor_inv (d : List (String × List String)) (c n : String)
    (h : ∀ p ∈ d, p.1 ∉ p.2) (hn : n ≠ c) :
    ∀ p ∈ appendNeighbor d c n, p.1 ∉ p.2 := by
  intro p hp
  obtain ⟨q, hq, hqp⟩ := List.mem_map.mp hp
  by_cases hqc : q.1 = c
  · rw [if_pos hqc] at hqp
    subst hqp
    simp only [List.mem_append, List.mem_singleton]
    rintro (h1 | h1)
    · exact h q hq h1
    · exact hn (by rw [← h1, hqc])
  · rw [if_neg hqc] at hqp
    subst hqp
    exact h q hq

theorem adjLineStep_inv (st : Option String × List (String × List String))
    (r : String × String) (h : ∀ p ∈ st.2, p.1 ∉ p.2) :
    ∀ p ∈ (adjLineStep st r).2, p.1 ∉ p.2 := by
  have hd : ∀ p ∈ (if r.1 ≠ "" then ensureKey st.2 (zfill5 r.1) else st.2),
      p.1 ∉ p.2 := by
    split
    · exact ensureKey_inv st.2 (zfill5 r.1) h
    · exact h
  simp only [adjLineStep]
  split
  · next c _ =>
    split
    · next hne => exact appendNeighbor_inv _ c (zfill5 r.2) hd hne
    · exact hd
  · exact hd

theorem build_adjacencies_inv (records : List (String × String)) :
    ∀ p ∈ build_adjacencies records, p.1 ∉ p.2 := by
  unfold build_adjacencies
  have hgen : ∀ (st : Option String × List (String × List String)),
      (∀ p ∈ st.2, p.1 ∉ p.2) →
      ∀ p ∈ (records.foldl adjLineStep st).2, p.1 ∉ p.2 := by
    induction records with
    | nil => exact fun st h => h
    | cons r rs ih => exact fun st h => ih _ (adjLineStep_inv st r h)
  exact hgen (none, []) (by simp)

/-- C4 amended claim: the adjacency dict built by the parsing loop never
lists an entity as its own neighbor (self-pairs are discarded), but it is
NOT symmetrized — a reverse edge is present only when the raw records
themselves list it (see the counterexample). -/
theorem adjacency_no_self_loops (records : List (String × String)) (k : String) :
    decide (k ∈ neighborsOf (build_adjacencies records) k) = false := by
  rw [decide_eq_false_iff_not]
  unfold neighborsOf
  cases hd : dget k (build_adjacencies records) with
  | none => simp
  | some l =>
    simp only [Option.getD_some]
    intro hk
    exact build_adjacencies_inv records (k, l) (dget_mem k l _ hd) hk

/-- C4 counterexample: a raw source listing the edge in only one
direction produces an asymmetric graph — `"01003"` is recorded as a
neighbor of `"01001"`, but not conversely, so the claimed symmetrization
does not happen. -/
theorem adjacency_not_symmetric :
    "01003" ∈ neighborsOf (build_adjacencies [("01001", "01003")]) "01001"
    ∧ "01001" ∉ neighborsOf (build_adjacencies [("01001", "01003")]) "01003" := by
  decide

/-- C5 amended claim: whenever the set of viable attackers (active teams
with a non-empty `get_neighbors` set) is empty, the SPIN FOR NEXT BATTLE
handler proposes nothing and leaves the whole state unchanged — it
silently does nothing; no distinct `NoViableAttacker` error is surfaced,
the handler simply has no branch for that case. -/
theorem spin_noop_when_no_viable (s : GameState) (k1 k2 : Nat)
    (h : ∀ t ∈ s.teams, t.active = true →
      get_neighbors s.county_assignments s.adjacencies t.name = []) :
    spinForNextBattle s.teams s.county_assignments s.adjacencies k1 k2 = none
    ∧ spinHandler s k1 k2 = s := by
  have hviable : (s.teams.filter (fun t => t.active)).filter
      (fun t => !(get_neighbors s.county_assignments s.adjacencies t.name).isEmpty)
      = [] := by
    rw [List.filter_eq_nil_iff]
    intro t ht
    obtain ⟨ht1, ht2⟩ := List.mem_filter.mp ht
    rw [h t ht1 ht2]
    simp
  have h1 : spinForNextBattle s.teams s.county_assignments s.adjacencies k1 k2
      = none := by
    simp only [spinForNextBattle, hviable]
    rfl
  refine ⟨h1, ?_⟩
  unfold spinHandler
  rw [h1]

/-- C5 witness: the single-team state has no viable attacker, and the
handler leaves it untouched. -/
theorem spin_noop_when_no_viable_witness :
    (∀ t ∈ soloState.teams, t.active = true →
      get_neighbors soloState.county_assignments soloState.adjacencies t.name = [])
    ∧ (spinForNextBattle soloState.teams soloState.county_assignments
        soloState.adjacencies 3 7 = none
      ∧ spinHandler soloState 3 7 = soloState) :=
  ⟨by decide, spin_noop_when_no_viable soloState 3 7 (by decide)⟩

/-- C5 counterexample: in the one-active-team state the spin handler
neither proposes a battle nor mutates anything and surfaces no error at
all — it silently does nothing, contradicting the claim that proposing
fails with a distinct `NoViableAttacker` error rather than silently doing
nothing. -/
theorem spin_silently_does_nothing :
    spinForNextBattle soloState.teams soloState.county_assignments
      soloState.adjacencies 0 0 = none
    ∧ spinHandler soloState 0 0 = soloState := by
  decide

/-- C7: every battle the spin handler proposes has a defender drawn from
`get_neighbors(attacker)` as computed at proposal time, and in particular
attacker and defender differ, since `get_neighbors` never contains the
queried team itself. -/
theorem propose_defender_adjacent (teams : List Team)
    (ca : List (String × String)) (adj : List (String × List String))
    (k1 k2 : Nat) (b : Battle)
    (h : spinForNextBattle teams ca adj k1 k2 = some b) :
    b.dfn ∈ get_neighbors ca adj b.att ∧ b.att ≠ b.dfn
    ∧ ∀ t : String, t ∉ get_neighbors ca adj t := by
  simp only [spinForNextBattle] at h
  split at h
  · exact absurd h (by simp)
  · next hcond =>
    have hb := Option.some.inj h
    subst hb
    have hne : (teams.filter (fun t => t.active)).filter
        (fun t => !(get_neighbors ca adj t.name).isEmpty) ≠ [] := by
      intro hnil
      rw [hnil] at hcond
      exact hcond rfl
    have hmem := choose_mem _ k1 default hne
    obtain ⟨hact, hpred⟩ := List.mem_filter.mp hmem
    have hNne : get_neighbors ca adj
        ((choose ((teams.filter (fun t => t.active)).filter
          (fun t => !(get_neighbors ca adj t.name).isEmpty)) k1 default).name)
        ≠ [] := by
      intro hnil
      rw [hnil] at hpred
      simp at hpred
    have hD := choose_mem _ k2 "" hNne
    have hself := get_neighbors_not_self ca adj
      ((choose ((teams.filter (fun t => t.active)).filter
        (fun t => !(get_neighbors ca adj t.name).isEmpty)) k1 default).name)
    dsimp only
    refine ⟨hD, ?_, fun t => get_neighbors_not_self ca adj t⟩
    intro heq
    rw [← heq] at hD
    exact hself hD

/-- C7 witness: in the two-team scenario the spin handler proposes
Alpha vs Bravo, and the proposal satisfies the adjacency and
no-self-battle properties. -/
theorem propose_defender_adjacent_witness :
    spinForNextBattle duoState.teams duoState.county_assignments
      duoState.adjacencies 0 0 = some battlePending
    ∧ (battlePending.dfn ∈ get_neighbors duoState.county_assignments
        duoState.adjacencies battlePending.att
      ∧ battlePending.att ≠ battlePending.dfn
      ∧ ∀ t : String, t ∉ get_neighbors duoState.county_assignments
          duoState.adjacencies t) :=
  ⟨by decide, propose_defender_adjacent duoState.teams duoState.county_assignments
    duoState.adjacencies 0 0 battlePending (by decide)⟩

/-- C2: the initial partition built from a non-empty roster over a
universe of distinct fips codes maps every entity to exactly one agent —
its keys are exactly the universe, without duplicates, and every entity
looks up to an owner — and battle resolution through the Confirm Result
handler never changes the key set (hence the total owned count). -/
theorem partition_total_exclusive (teams : List Team) (counties : List County)
    (h1 : teams ≠ []) (h2 : (counties.map County.fips).Nodup) :
    (assign_initial_territories teams counties).map Prod.fst
      = counties.map County.fips
    ∧ ((assign_initial_territories teams counties).map Prod.fst).Nodup
    ∧ (∀ c ∈ counties,
        (dget c.fips (assign_initial_territories teams counties)).isSome = true)
    ∧ (∀ (s : GameState) (w : String),
        (confirmResult s w).county_assignments.map Prod.fst
          = s.county_assignments.map Prod.fst) := by
  have hemp : teams.isEmpty = false := by
    cases teams with
    | nil => exact absurd rfl h1
    | cons t ts => rfl
  have hkeys : (assign_initial_territories teams counties).map Prod.fst
      = counties.map County.fips := by
    simp [assign_initial_territories, hemp, List.map_map, Function.comp]
  refine ⟨hkeys, hkeys ▸ h2, ?_, ?_⟩
  · intro c hc
    apply dget_isSome_of_mem_keys
    rw [hkeys]
    exact List.mem_map_of_mem County.fips hc
  · intro s w
    unfold confirmResult
    cases hlast : s.battle_log.getLast? with
    | none => rfl
    | some ab =>
      simp [confirmAssignments, List.map_map, Function.comp]

/-- C2 witness: the two-team scenario instantiates the invariants. -/
theorem partition_total_exclusive_witness :
    (duoTeams ≠ [] ∧ (duoCounties.map County.fips).Nodup)
    ∧ ((assign_initial_territories duoTeams duoCounties).map Prod.fst
        = duoCounties.map County.fips
      ∧ ((assign_initial_territories duoTeams duoCounties).map Prod.fst).Nodup
      ∧ (∀ c ∈ duoCounties,
          (dget c.fips (assign_initial_territories duoTeams duoCounties)).isSome
            = true)
      ∧ (∀ (s : GameState) (w : String),
          (confirmResult s w).county_assignments.map Prod.fst
            = s.county_assignments.map Prod.fst)) :=
  ⟨⟨by decide, by decide⟩,
    partition_total_exclusive duoTeams duoCounties (by decide) (by decide)⟩

/-- C3: resolving the pending battle at the end of the log with a winner
drawn from {attacker, defender} (with attacker ≠ defender) leaves the
loser owning zero entities, rewrites exactly the loser's entities to the
winner while all others keep their owner, and recomputes every team's
active flag as "owns at least one entity" — in particular the loser's
flag becomes false. -/
theorem resolve_post_conquest (s : GameState) (ab : Battle) (winner : String)
    (hlast : s.battle_log.getLast? = some ab)
    (hw : winner = ab.att ∨ winner = ab.dfn) (hne : ab.att ≠ ab.dfn) :
    ownedBy (if winner = ab.att then ab.dfn else ab.att)
      (confirmResult s winner).county_assignments = []
    ∧ (∀ f o, dget f s.county_assignments = some o →
        dget f (confirmResult s winner).county_assignments
          = some (if o = (if winner = ab.att then ab.dfn else ab.att)
                  then winner else o))
    ∧ (∀ t ∈ (confirmResult s winner).teams,
        t.active
          = decide (ownedBy t.name (confirmResult s winner).county_assignments ≠ []))
    ∧ (∀ t ∈ (confirmResult s winner).teams,
        t.name = (if winner = ab.att then ab.dfn else ab.att) →
          t.active = false) := by
  have hlw : (if winner = ab.att then ab.dfn else ab.att) ≠ winner := by
    rcases hw with h | h
    · subst h
      rw [if_pos rfl]
      exact hne.symm
    · subst h
      rw [if_neg (fun hh => hne hh.symm)]
      exact hne
  have hmain : ∀ o : String,
      (if o = (if winner = ab.att then ab.dfn else ab.att) then winner else o)
        ≠ (if winner = ab.att then ab.dfn else ab.att) := by
    intro o
    by_cases ho : o = (if winner = ab.att then ab.dfn else ab.att)
    · rw [if_pos ho]
      exact fun hh => hlw hh.symm
    · rw [if_neg ho]
      exact ho
  have hC1 : ownedBy (if winner = ab.att then ab.dfn else ab.att)
      (confirmAssignments s.county_assignments ab.att ab.dfn winner) = [] := by
    unfold ownedBy confirmAssignments
    rw [List.map_eq_nil_iff, List.filter_eq_nil_iff]
    intro p hp
    obtain ⟨q, hq, hqp⟩ := List.mem_map.mp hp
    subst hqp
    simpa using hmain q.2
  simp only [confirmResult, hlast]
  refine ⟨hC1, ?_, ?_, ?_⟩
  · intro f o hfo
    have := dget_map_snd
      (fun o => if o = (if winner = ab.att then ab.dfn else ab.att)
                then winner else o) f s.county_assignments
    unfold confirmAssignments
    rw [this, hfo]
    rfl
  · intro t ht
    obtain ⟨t0, ht0, ht0t⟩ := List.mem_map.mp ht
    subst ht0t
    exact decide_eq_decide.mpr (mem_vals_iff_ownedBy _ _)
  · intro t ht hn
    obtain ⟨t0, ht0, ht0t⟩ := List.mem_map.mp ht
    subst ht0t
    simp only at hn ⊢
    rw [hn]
    rw [decide_eq_false_iff_not]
    rw [mem_vals_iff_ownedBy, hC1]
    exact fun hh => hh rfl

/-- C3 witness: confirming `Alpha` as the winner of the pending scenario
battle dispossesses and deactivates `Bravo`. -/
theorem resolve_post_conquest_witness :
    ({ duoState with battle_log := [battlePending] } : GameState).battle_log.getLast?
        = some battlePending
    ∧ ("Alpha" = battlePending.att ∨ "Alpha" = battlePending.dfn)
    ∧ battlePending.att ≠ battlePending.dfn
    ∧ (ownedBy (if "Alpha" = battlePending.att then battlePending.dfn
          else battlePending.att)
        (confirmResult { duoState with battle_log := [battlePending] } "Alpha").county_assignments
        = []
      ∧ (∀ f o,
          dget f ({ duoState with battle_log := [battlePending] } : GameState).county_assignments
            = some o →
          dget f (confirmResult { duoState with battle_log := [battlePending] } "Alpha").county_assignments
            = some (if o = (if "Alpha" = battlePending.att then battlePending.dfn
                            else battlePending.att)
                    then "Alpha" else o))
      ∧ (∀ t ∈ (confirmResult { duoState with battle_log := [battlePending] } "Alpha").teams,
          t.active = decide (ownedBy t.name
            (confirmResult { duoState with battle_log := [battlePending] } "Alpha").county_assignments
              ≠ []))
      ∧ (∀ t ∈ (confirmResult { duoState with battle_log := [battlePending] } "Alpha").teams,
          t.name = (if "Alpha" = battlePending.att then battlePending.dfn
                    else battlePending.att) →
            t.active = false)) :=
  ⟨rfl, Or.inl rfl, by decide,
    resolve_post_conquest { duoState with battle_log := [battlePending] }
      battlePending "Alpha" rfl (Or.inl rfl) (by decide)⟩

theorem liveResolveAll_assignments (events : List Battle) (s : GameState) :
    (liveResolveAll events s).county_assignments
      = events.foldl
          (fun ca b => confirmAssignments ca b.att b.dfn (b.winner.getD ""))
          s.county_assignments := by
  induction events generalizing s with
  | nil => rfl
  | cons b events ih =>
    have hstep : liveResolveAll (b :: events) s
        = liveResolveAll events
            (confirmResult
              { s with battle_log :=
                  s.battle_log ++ [{ att := b.att, dfn := b.dfn, winner := none }] }
              (b.winner.getD "")) := rfl
    rw [hstep, ih]
    have hs1 : (confirmResult
        { s with battle_log :=
            s.battle_log ++ [{ att := b.att, dfn := b.dfn, winner := none }] }
        (b.winner.getD "")).county_assignments
        = confirmAssignments s.county_assignments b.att b.dfn (b.winner.getD "") := by
      simp only [confirmResult, List.getLast?_concat]
    rw [hs1, List.foldl_cons]

/-- C1: replaying a log of resolved events against an initial partition
yields the same final TerritoryState as live, sequential resolution of
the same events in the same order through the spin/confirm code path —
the replay loop of lines 366-399 and the Confirm Result handler of
lines 410-416 apply the same ownership transform. -/
theorem replay_matches_live (events : List Battle) (start : GameState)
    (h : ∀ b ∈ events, truthy b.winner = true) :
    replayAll events start.county_assignments
      = (liveResolveAll events start).county_assignments := by
  rw [liveResolveAll_assignments]
  unfold replayAll
  rw [List.filter_eq_self.mpr h]
  rfl

/-- C1 witness: replay of the one-battle log agrees with live resolution
in the two-team scenario. -/
theorem replay_matches_live_witness :
    (∀ b ∈ [battleWonByAlpha], truthy b.winner = true)
    ∧ replayAll [battleWonByAlpha] duoState.county_assignments
      = (liveResolveAll [battleWonByAlpha] duoState).county_assignments :=
  ⟨by decide, replay_matches_live [battleWonByAlpha] duoState (by decide)⟩

/-- C10: when the last log entry is pending (winner unset), replay
filters it out — the final replayed TerritoryState equals the replay of
the resolved prefix (from any initial partition), and the handler leaves
the log itself unchanged. -/
theorem replay_skips_pending (counties : List County) (s : GameState)
    (resolved : List Battle) (p : Battle)
    (hlog : s.battle_log = resolved ++ [p]) (hp : p.winner = none) :
    (replayHandler counties s).county_assignments
      = replayAll resolved (assign_initial_territories s.teams counties)
    ∧ (replayHandler counties s).battle_log = s.battle_log
    ∧ ∀ init : List (String × String),
        replayAll s.battle_log init = replayAll resolved init := by
  have key : ∀ init : List (String × String),
      replayAll (resolved ++ [p]) init = replayAll resolved init := by
    intro init
    unfold replayAll
    rw [List.filter_append]
    have hfp : [p].filter (fun b => truthy b.winner) = [] := by
      simp [List.filter, hp, truthy]
    rw [hfp, List.append_nil]
  refine ⟨?_, rfl, ?_⟩
  · show replayAll s.battle_log (assign_initial_territories s.teams counties)
      = replayAll resolved (assign_initial_territories s.teams counties)
    rw [hlog]
    exact key _
  · intro init
    rw [hlog]
    exact key init

/-- C10 witness: the scenario log with a trailing pending battle replays
to the same state as its resolved prefix, the log untouched. -/
theorem replay_skips_pending_witness :
    (pendState.battle_log = [battleWonByAlpha] ++ [battlePending]
      ∧ battlePending.winner = none)
    ∧ ((replayHandler duoCounties pendState).county_assignments
        = replayAll [battleWonByAlpha]
            (assign_initial_territories pendState.teams duoCounties)
      ∧ (replayHandler duoCounties pendState).battle_log = pendState.battle_log
      ∧ ∀ init : List (String × String),
          replayAll pendState.battle_log init = replayAll [battleWonByAlpha] init) :=
  ⟨⟨rfl, rfl⟩,
    replay_skips_pending duoCounties pendState [battleWonByAlpha] battlePending
      rfl rfl⟩

theorem argminQ_spec {α : Type} (f : α → ℚ) (d : α) (l : List α) (hl : l ≠ []) :
    ∃ j v, argminQ f l = some (j, v) ∧ j < l.length ∧ f (l.getD j d) = v
      ∧ (∀ i, i < l.length → v ≤ f (l.getD i d))
      ∧ (∀ i, i < j → v < f (l.getD i d)) := by
  induction l with
  | nil => exact absurd rfl hl
  | cons a l ih =>
    by_cases hln : l = []
    · subst hln
      refine ⟨0, f a, rfl, by simp, rfl, ?_, by omega⟩
      intro i hi
      have hi0 : i = 0 := by simpa using hi
      subst hi0
      simp
    · obtain ⟨j, v, hjv, hlt, hval, hmin, hstrict⟩ := ih hln
      simp only [argminQ]
      rw [hjv]
      have hred : (match some (j, v) with
          | none => some (0, f a)
          | some (j, v) => if f a ≤ v then some (0, f a) else some (j + 1, v))
          = if f a ≤ v then some (0, f a) else some (j + 1, v) := rfl
      rw [hred]
      by_cases hle : f a ≤ v
      · rw [if_pos hle]
        refine ⟨0, f a, rfl, by simp, rfl, ?_, by omega⟩
        intro i hi
        cases i with
        | zero => simp
        | succ i =>
          simp only [List.getD_cons_succ]
          exact le_trans hle (hmin i (by simpa using hi))
      · rw [if_neg hle]
        push_neg at hle
        refine ⟨j + 1, v, rfl, by simpa using hlt, by simpa using hval, ?_, ?_⟩
        · intro i hi
          cases i with
          | zero => simpa using le_of_lt hle
          | succ i =>
            simp only [List.getD_cons_succ]
            exact hmin i (by simpa using hi)
        · intro i hi
          cases i with
          | zero => simpa using hle
          | succ i =>
            simp only [List.getD_cons_succ]
            exact hstrict i (by omega)

/-- C8: with a non-empty roster, each county is assigned to the team at
minimal planar (squared) distance from it, and among exactly equidistant
teams the one with the smallest roster index is chosen; the pair
`(county, nearest team's name)` is what the initial partition records. -/
theorem nearest_site_assignment (teams : List Team) (c : County)
    (h : teams ≠ []) :
    kdtreeNearest teams c.lat c.lon < teams.length
    ∧ (∀ i, i < teams.length →
        sqDist (teams.getD (kdtreeNearest teams c.lat c.lon) default).lat
            (teams.getD (kdtreeNearest teams c.lat c.lon) default).lon c.lat c.lon
          ≤ sqDist (teams.getD i default).lat (teams.getD i default).lon
              c.lat c.lon)
    ∧ (∀ i, i < teams.length →
        sqDist (teams.getD i default).lat (teams.getD i default).lon c.lat c.lon
          = sqDist (teams.getD (kdtreeNearest teams c.lat c.lon) default).lat
              (teams.getD (kdtreeNearest teams c.lat c.lon) default).lon
              c.lat c.lon →
        kdtreeNearest teams c.lat c.lon ≤ i)
    ∧ (∀ counties : List County, c ∈ counties →
        (c.fips, (teams.getD (kdtreeNearest teams c.lat c.lon) default).name)
          ∈ assign_initial_territories teams counties) := by
  obtain ⟨j, v, hjv, hlt, hval, hmin, hstrict⟩ :=
    argminQ_spec (fun t => sqDist t.lat t.lon c.lat c.lon) default teams h
  have hk : kdtreeNearest teams c.lat c.lon = j := by
    unfold kdtreeNearest
    rw [hjv]
  have hval2 : sqDist (teams.getD j default).lat (teams.getD j default).lon
      c.lat c.lon = v := hval
  refine ⟨?_, ?_, ?_, ?_⟩
  · rw [hk]
    exact hlt
  · intro i hi
    rw [hk, hval2]
    exact hmin i hi
  · intro i hi heq
    rw [hk] at heq ⊢
    by_contra hji
    have hij : i < j := by omega
    have := hstrict i hij
    rw [heq, hval2] at this
    exact absurd this (lt_irrefl v)
  · intro counties hc
    have hemp : teams.isEmpty = false := by
      cases teams with
      | nil => exact absurd rfl h
      | cons t ts => rfl
    simp only [assign_initial_territories, hemp, Bool.false_eq_true, if_false]
    exact List.mem_map_of_mem
      (fun c2 => (c2.fips,
        (teams.getD (kdtreeNearest teams c2.lat c2.lon) default).name)) hc

/-- C8 witness: in the spec's concrete scenario, the county at `(5,5)` is
exactly equidistant from the two sites and is assigned to `Alpha`, the
team with the smaller roster index. -/
theorem nearest_site_assignment_witness :
    duoTeams ≠ []
    ∧ (kdtreeNearest duoTeams cFive.lat cFive.lon < duoTeams.length
      ∧ (∀ i, i < duoTeams.length →
          sqDist (duoTeams.getD (kdtreeNearest duoTeams cFive.lat cFive.lon) default).lat
              (duoTeams.getD (kdtreeNearest duoTeams cFive.lat cFive.lon) default).lon
              cFive.lat cFive.lon
            ≤ sqDist (duoTeams.getD i default).lat (duoTeams.getD i default).lon
                cFive.lat cFive.lon)
      ∧ (∀ i, i < duoTeams.length →
          sqDist (duoTeams.getD i default).lat (duoTeams.getD i default).lon
              cFive.lat cFive.lon
            = sqDist (duoTeams.getD (kdtreeNearest duoTeams cFive.lat cFive.lon) default).lat
                (duoTeams.getD (kdtreeNearest duoTeams cFive.lat cFive.lon) default).lon
                cFive.lat cFive.lon →
          kdtreeNearest duoTeams cFive.lat cFive.lon ≤ i)
      ∧ (∀ counties : List County, cFive ∈ counties →
          (cFive.fips,
            (duoTeams.getD (kdtreeNearest duoTeams cFive.lat cFive.lon) default).name)
            ∈ assign_initial_territories duoTeams counties)) :=
  ⟨by decide, nearest_site_assignment duoTeams cFive (by decide)⟩

end Imperialism
